import Mathlib

/-!
Verification of the compose-replacement engine of confluent-docker-utils
(`confluent/docker_utils/compose.py`) against its natural-language
specification.

The Python module is shallowly embedded: pure helpers (`_expand_env_vars`
on strings, `_parse_ports`, `_parse_volumes`, `_parse_environment`,
`name_without_project`) become Lean functions over `List Char` / `String`;
the stateful Docker runtime becomes an explicit `DockerState` record, and
each facade operation becomes a state-passing function that also returns
the list of runtime calls it performed (`RuntimeCall`) and an
`Except PyErr` result mirroring Python exception propagation.  Points at
which the real runtime behaves nondeterministically (the status of a
freshly run container, errors raised by create/stop/remove calls) are
inputs of the corresponding functions, so every behaviour of the runtime
is covered by universally quantified theorems.
-/

/-! ## Constants (compose.py module constants) -/

def LABEL_PROJECT : String := "com.docker.compose.project"

def LABEL_SERVICE : String := "com.docker.compose.service"

def STATUS_RUNNING : String := "running"

def STATUS_EXITED : String := "exited"

def NETWORK_DRIVER_BRIDGE : String := "bridge"

def VOLUME_MODE_RW : String := "rw"

/-! ## Small Python-semantics helpers -/

/-- The character `\x7b` (opening curly brace), used by the `${...}` syntax. -/
def lbrace : Char := '\x7b'

/-- The character `\x7d` (closing curly brace). -/
def rbrace : Char := '\x7d'

/-- `os.environ`-style lookup in an association list: first binding wins. -/
def envGet (env : List (String × String)) (n : String) : Option String :=
  (env.find? (fun p => p.1 == n)).map (fun p => p.2)

/-- Python `s.split(sep)` for a one-character separator: splits at every
occurrence, keeping empty segments, and returns `[s]` when absent. -/
def pySplit (sep : Char) : List Char → List (List Char)
  | [] => [[]]
  | c :: cs =>
    if c = sep then [] :: pySplit sep cs
    else
      match pySplit sep cs with
      | [] => [[c]]
      | r :: rs => (c :: r) :: rs

def pySplitStr (sep : Char) (s : String) : List String :=
  (pySplit sep s.data).map String.mk

/-- Python `s.split(sep, 1)` restricted to the found case: splits at the
first occurrence of `pat`, returning the parts before and after it. -/
def splitOnce (pat : List Char) : List Char → Option (List Char × List Char)
  | [] => none
  | c :: cs =>
    if pat.isPrefixOf (c :: cs) then some ([], (c :: cs).drop pat.length)
    else
      match splitOnce pat cs with
      | some (a, b) => some (c :: a, b)
      | none => none

/-- Python slice `s[-n:]`: the last `n` characters (whole string if shorter). -/
def pyTakeLast (n : Nat) (s : String) : String :=
  String.mk (s.data.drop (s.data.length - n))

/-- Python `os.path.join` for the two-argument POSIX case used by
`_parse_volumes`. -/
def pyPathJoin (a b : String) : String :=
  if b.startsWith "/" then b
  else if a = "" then b
  else if a.endsWith "/" then a ++ b
  else a ++ "/" ++ b

def pyDigit (c : Char) : Bool := '0' ≤ c && c ≤ '9'

/-- Python `s.isdigit()` restricted to ASCII digits. -/
def isPyDigits (s : String) : Bool :=
  !s.data.isEmpty && s.data.all pyDigit

def digitsToNat (l : List Char) : Nat :=
  l.foldl (fun acc c => acc * 10 + (c.toNat - '0'.toNat)) 0

def pyIsSpace (c : Char) : Bool :=
  c = ' ' || c = '\t' || c = '\n' || c = '\r' || c = '\x0b' || c = '\x0c'

/-- Surrounding-whitespace strip, as `int()` applies before parsing. -/
def pyStrip (l : List Char) : List Char :=
  ((l.dropWhile pyIsSpace).reverse.dropWhile pyIsSpace).reverse

/-- Python `int(s)`: optional surrounding whitespace, an optional sign and a
nonempty run of decimal digits; `none` models the `ValueError` raised on any
other input. -/
def pyInt (s : String) : Option Int :=
  match pyStrip s.data with
  | [] => none
  | '+' :: ds =>
    if !ds.isEmpty && ds.all pyDigit then some (Int.ofNat (digitsToNat ds)) else none
  | '-' :: ds =>
    if !ds.isEmpty && ds.all pyDigit then some (-(Int.ofNat (digitsToNat ds))) else none
  | ds =>
    if ds.all pyDigit then some (Int.ofNat (digitsToNat ds)) else none

/-! ## Environment-variable expansion (`_expand_env_vars`, string case)

The module substitutes with two `re.sub` passes:
`ENV_VAR_BRACED_PATTERN = \$\x7b([^\x7d]+)\x7d` first, then
`ENV_VAR_SIMPLE_PATTERN = \$([A-Za-z_][A-Za-z0-9_]*)`.  Each pass is
embedded as a left-to-right scanner (a fold with a small mode automaton),
which matches `re.sub` semantics: leftmost non-overlapping matches, greedy
character classes, and replacement text that is emitted verbatim and never
rescanned within the same pass. -/

/-- The body of `_replace_braced`, applied to the text captured between the
braces.  Branch order follows the Python source: a `:-` occurrence wins,
then a `-` occurrence provided the expression does not start with `-`,
otherwise a plain lookup defaulting to the empty string. -/
def replaceBraced (env : List (String × String)) (expr : List Char) : List Char :=
  match splitOnce [':', '-'] expr with
  | some (name, dflt) => ((envGet env (String.mk name)).getD (String.mk dflt)).data
  | none =>
    if expr.head? = some '-' then ((envGet env (String.mk expr)).getD "").data
    else
      match splitOnce ['-'] expr with
      | some (name, dflt) =>
        match envGet env (String.mk name) with
        | some v => v.data
        | none => dflt
      | none => ((envGet env (String.mk expr)).getD "").data

inductive BracedMode where
  | copy : BracedMode
  | dollar : BracedMode
  | collect (buf : List Char) : BracedMode
deriving DecidableEq

structure BracedAcc where
  out : List Char
  mode : BracedMode
deriving DecidableEq

/-- One scanning step of the braced-pattern pass. -/
def bracedStep (env : List (String × String)) (acc : BracedAcc) (c : Char) : BracedAcc :=
  match acc.mode with
  | .copy =>
    if c = '$' then { acc with mode := .dollar }
    else { acc with out := acc.out ++ [c] }
  | .dollar =>
    if c = lbrace then { acc with mode := .collect [] }
    else if c = '$' then { acc with out := acc.out ++ ['$'] }
    else { out := acc.out ++ ['$', c], mode := .copy }
  | .collect buf =>
    if c = rbrace then
      if buf.isEmpty then { out := acc.out ++ ['$', lbrace, rbrace], mode := .copy }
      else { out := acc.out ++ replaceBraced env buf.reverse, mode := .copy }
    else { acc with mode := .collect (c :: buf) }

/-- End-of-input: pending partial-match text is emitted verbatim (the regex
found no further match). -/
def bracedFlush (acc : BracedAcc) : List Char :=
  match acc.mode with
  | .copy => acc.out
  | .dollar => acc.out ++ ['$']
  | .collect buf => acc.out ++ '$' :: lbrace :: buf.reverse

/-- `ENV_VAR_BRACED_PATTERN.sub(_replace_braced, value)`. -/
def subBraced (env : List (String × String)) (l : List Char) : List Char :=
  bracedFlush (l.foldl (bracedStep env) { out := [], mode := .copy })

/-- Character class `[A-Za-z_]`. -/
def isIdentStart (c : Char) : Bool :=
  ('A' ≤ c && c ≤ 'Z') || ('a' ≤ c && c ≤ 'z') || c = '_'

/-- Character class `[A-Za-z0-9_]`. -/
def isIdentCont (c : Char) : Bool :=
  isIdentStart c || ('0' ≤ c && c ≤ '9')

/-- A whole string matching `[A-Za-z_][A-Za-z0-9_]*`. -/
def isIdentStr (s : String) : Bool :=
  match s.data with
  | [] => false
  | c :: cs => isIdentStart c && cs.all isIdentCont

inductive SimpleMode where
  | copy : SimpleMode
  | dollar : SimpleMode
  | ident (buf : List Char) : SimpleMode
deriving DecidableEq

structure SimpleAcc where
  out : List Char
  mode : SimpleMode
deriving DecidableEq

/-- Replacement text for a completed `$NAME` match (`buf` holds the name
reversed); unset variables yield the empty string. -/
def identValue (env : List (String × String)) (buf : List Char) : List Char :=
  ((envGet env (String.mk buf.reverse)).getD "").data

/-- One scanning step of the bare-`$VAR` pass. -/
def simpleStep (env : List (String × String)) (acc : SimpleAcc) (c : Char) : SimpleAcc :=
  match acc.mode with
  | .copy =>
    if c = '$' then { acc with mode := .dollar }
    else { acc with out := acc.out ++ [c] }
  | .dollar =>
    if isIdentStart c then { acc with mode := .ident [c] }
    else if c = '$' then { acc with out := acc.out ++ ['$'] }
    else { out := acc.out ++ ['$', c], mode := .copy }
  | .ident buf =>
    if isIdentCont c then { acc with mode := .ident (c :: buf) }
    else if c = '$' then { out := acc.out ++ identValue env buf, mode := .dollar }
    else { out := acc.out ++ identValue env buf ++ [c], mode := .copy }

def simpleFlush (env : List (String × String)) (acc : SimpleAcc) : List Char :=
  match acc.mode with
  | .copy => acc.out
  | .dollar => acc.out ++ ['$']
  | .ident buf => acc.out ++ identValue env buf

/-- `ENV_VAR_SIMPLE_PATTERN.sub(..., result)`. -/
def subSimple (env : List (String × String)) (l : List Char) : List Char :=
  simpleFlush env (l.foldl (simpleStep env) { out := [], mode := .copy })

/-- `_expand_env_vars` on a string value: the braced pass runs first and the
bare-`$VAR` pass runs on its output. -/
def expandEnvVars (env : List (String × String)) (s : String) : String :=
  String.mk (subSimple env (subBraced env s.data))

/-- Builds the source text of a braced reference, e.g. `bracedVar "FOO"` is
the four characters dollar, open brace, FOO, close brace. -/
def bracedVar (name : String) : String :=
  String.mk ('$' :: lbrace :: (name.data ++ [rbrace]))

/-- Source text of a `VAR-default` braced form. -/
def bracedDash (name dflt : String) : String :=
  String.mk ('$' :: lbrace :: (name.data ++ '-' :: dflt.data ++ [rbrace]))

/-- Source text of a `VAR:-default` braced form. -/
def bracedColonDash (name dflt : String) : String :=
  String.mk ('$' :: lbrace :: (name.data ++ ':' :: '-' :: dflt.data ++ [rbrace]))

/-! ## Runtime data model

`DockerState` is the Docker daemon's view: the containers and networks that
exist, with the metadata the module reads (name, labels, status, logs).
`RuntimeCall` records which control-surface operations an embedded function
performed, so that claims about "no create call is made" or "exactly one
status re-query" are directly statable. -/

structure Container where
  name : String
  projectLabel : Option String
  serviceLabel : Option String
  status : String
  logs : String
deriving DecidableEq

structure Network where
  name : String
deriving DecidableEq

structure DockerState where
  containers : List Container
  networks : List Network
deriving DecidableEq

inductive RuntimeCall where
  | containerGet (name : String) : RuntimeCall
  | containerStart (name : String) : RuntimeCall
  | containerCreate (name : String) : RuntimeCall
  | containerStop (name : String) : RuntimeCall
  | containerRemove (name : String) : RuntimeCall
  | containerList : RuntimeCall
  | statusReload (name : String) : RuntimeCall
  | logsFetch (name : String) : RuntimeCall
  | networkGet (name : String) : RuntimeCall
  | networkCreate (name : String) : RuntimeCall
  | networkRemove (name : String) : RuntimeCall
deriving DecidableEq

def RuntimeCall.isCreate : RuntimeCall → Bool
  | .containerCreate _ => true
  | _ => false

def RuntimeCall.isStatusReload : RuntimeCall → Bool
  | .statusReload _ => true
  | _ => false

/-- Python exception values that the module raises or handles.  In
docker-py, `NotFound` is a subclass of `APIError`; the embedding keeps them
separate and lets except-clauses catch the appropriate set. -/
inductive PyErr where
  | valueError (msg : String) : PyErr
  | runtimeError (msg : String) : PyErr
  | dockerNotFound (msg : String) : PyErr
  | dockerAPIError (msg : String) : PyErr
deriving DecidableEq

/-- The errors matched by `except (docker.errors.NotFound, docker.errors.APIError)`
(and by `except docker.errors.APIError`, since `NotFound` subclasses it). -/
def isDockerErrPy : PyErr → Bool
  | .dockerNotFound _ => true
  | .dockerAPIError _ => true
  | _ => false

instance {ε α : Type} [DecidableEq ε] [DecidableEq α] : DecidableEq (Except ε α) := fun a b =>
  match a, b with
  | .ok x, .ok y =>
    if h : x = y then .isTrue (by rw [h]) else .isFalse (fun hh => by cases hh; exact h rfl)
  | .error x, .error y =>
    if h : x = y then .isTrue (by rw [h]) else .isFalse (fun hh => by cases hh; exact h rfl)
  | .ok _, .error _ => .isFalse (fun hh => by cases hh)
  | .error _, .ok _ => .isFalse (fun hh => by cases hh)

/-- `client.containers.get(name)` (successful lookup; absence models the
`NotFound` branch of the callers). -/
def containersGet (st : DockerState) (n : String) : Option Container :=
  st.containers.find? (fun c => c.name == n)

/-- `client.networks.get(name)` likewise. -/
def networksGet (st : DockerState) (n : String) : Option Network :=
  st.networks.find? (fun nw => nw.name == n)

/-- Effect of `container.start()` / `container.stop()` on the daemon:
containers with the given name change status. -/
def setStatus (st : DockerState) (n : String) (s : String) : DockerState :=
  { st with containers :=
      st.containers.map (fun c => if c.name == n then { c with status := s } else c) }

/-! ## Service configuration (`ComposeConfig` service entries) -/

/-- A `ports:` list entry from the YAML file: an integer or a string.  The
code applies `str()` before splitting. -/
inductive PortSpec where
  | int (n : Int) : PortSpec
  | str (s : String) : PortSpec
deriving DecidableEq

def pyStr : PortSpec → String
  | .int n => toString n
  | .str s => s

/-- A value of the `ports` dict built by `_parse_ports`, keyed by container
port: `None`, an int host port, a non-numeric host string, or an
`(ip, host-port-or-none)` tuple. -/
inductive PortBinding where
  | noBind : PortBinding
  | hostInt (n : Int) : PortBinding
  | hostStr (s : String) : PortBinding
  | ipPort (ip : String) (hp : Option Int) : PortBinding
deriving DecidableEq

/-- An `environment:` section: the list form (string items) or the map form
(`none` values model YAML `null`, `some v` the `str()` of any other value). -/
inductive EnvSpec where
  | listForm (items : List String) : EnvSpec
  | dictForm (items : List (String × Option String)) : EnvSpec
deriving DecidableEq

/-- A service's declared fields, after YAML parsing and env expansion
(absent keys are `none`). -/
structure ServiceConfig where
  image : Option String := none
  command : Option String := none
  environment : Option EnvSpec := none
  ports : Option (List PortSpec) := none
  volumes : Option (List String) := none
  network_mode : Option String := none
  working_dir : Option String := none
  hostname : Option String := none
  entrypoint : Option String := none
  user : Option String := none
  tty : Option Bool := none
  stdin_open : Option Bool := none
deriving DecidableEq

/-- The `config` dict assembled by `_parse_service_config`. -/
structure ContainerConfig where
  image : Option String := none
  command : Option String := none
  environment : Option (List (String × String)) := none
  ports : Option (List (String × PortBinding)) := none
  volumes : Option (List (String × String × String)) := none
  network_mode : Option String := none
  working_dir : Option String := none
  hostname : Option String := none
  entrypoint : Option String := none
  user : Option String := none
  tty : Option Bool := none
  stdin_open : Option Bool := none
deriving DecidableEq

/-- Python dict insertion: an existing key keeps its position and gets the
new value, a new key is appended. -/
def dictInsert {β : Type} (l : List (String × β)) (k : String) (v : β) : List (String × β) :=
  if l.any (fun p => p.1 == k) then l.map (fun p => if p.1 == k then (k, v) else p)
  else l ++ [(k, v)]

/-- `_parse_environment`.  List entries `KEY=VAL` split at the first `=`;
bare keys resolve from the process environment (empty string when unset).
Map entries with a `null` value resolve likewise. -/
def parseEnvironment (procEnv : List (String × String)) : EnvSpec → List (String × String)
  | .listForm items =>
    items.foldl
      (fun result item =>
        if item.data.contains '=' then
          match splitOnce ['='] item.data with
          | some (k, v) => dictInsert result (String.mk k) (String.mk v)
          | none => result
        else dictInsert result item ((envGet procEnv item).getD ""))
      []
  | .dictForm items =>
    items.map (fun kv =>
      (kv.1, match kv.2 with
             | none => (envGet procEnv kv.1).getD ""
             | some v => v))

/-- One iteration of the `_parse_ports` loop.  The entry is stringified and
split on `:`; 1, 2 and 3 segments are handled, anything else is skipped
(no branch in the source).  A non-empty non-numeric host segment in the
3-segment form raises `ValueError` from `int()`. -/
def parsePortEntry (result : List (String × PortBinding)) (ps : PortSpec) :
    Except String (List (String × PortBinding)) :=
  match pySplitStr ':' (pyStr ps) with
  | [p] => .ok (dictInsert result p .noBind)
  | [hp, cp] =>
    .ok (dictInsert result cp
      (if isPyDigits hp then .hostInt (Int.ofNat (digitsToNat hp.data)) else .hostStr hp))
  | [ip, hp, cp] =>
    if hp = "" then .ok (dictInsert result cp (.ipPort ip none))
    else
      match pyInt hp with
      | some n => .ok (dictInsert result cp (.ipPort ip (some n)))
      | none => .error ("invalid literal for int with base 10: " ++ hp)
  | _ => .ok result

def parsePortsAux (result : List (String × PortBinding)) :
    List PortSpec → Except String (List (String × PortBinding))
  | [] => .ok result
  | ps :: rest =>
    match parsePortEntry result ps with
    | .error e => .error e
    | .ok r2 => parsePortsAux r2 rest

/-- `_parse_ports`. -/
def parsePorts (ports : List PortSpec) : Except String (List (String × PortBinding)) :=
  parsePortsAux [] ports

/-- `_parse_volumes`: entries without `:` are skipped; `host:container[:mode]`
with mode defaulting to `rw`; a `./` host path is resolved against the
config's working directory. -/
def parseVolumes (workingDir : String) (volumes : List String) :
    List (String × String × String) :=
  volumes.foldl
    (fun result spec =>
      if spec.data.contains ':' then
        let parts := pySplitStr ':' spec
        let host := parts.getD 0 ""
        let cont := parts.getD 1 ""
        let mode := if 2 < parts.length then parts.getD 2 "" else VOLUME_MODE_RW
        let host2 := if host.startsWith "./" then pyPathJoin workingDir (host.drop 2) else host
        dictInsert result host2 (cont, mode)
      else result)
    []

/-- `_parse_service_config`: copies the recognized keys, parsing
environment, ports and volumes.  A ports `ValueError` propagates. -/
def parseServiceConfig (workingDir : String) (procEnv : List (String × String))
    (sc : ServiceConfig) : Except PyErr ContainerConfig :=
  match sc.ports with
  | none =>
    .ok { image := sc.image, command := sc.command,
          environment := sc.environment.map (parseEnvironment procEnv),
          ports := none,
          volumes := sc.volumes.map (parseVolumes workingDir),
          network_mode := sc.network_mode, working_dir := sc.working_dir,
          hostname := sc.hostname, entrypoint := sc.entrypoint,
          user := sc.user, tty := sc.tty, stdin_open := sc.stdin_open }
  | some ps =>
    match parsePorts ps with
    | .error m => .error (.valueError m)
    | .ok pp =>
      .ok { image := sc.image, command := sc.command,
            environment := sc.environment.map (parseEnvironment procEnv),
            ports := some pp,
            volumes := sc.volumes.map (parseVolumes workingDir),
            network_mode := sc.network_mode, working_dir := sc.working_dir,
            hostname := sc.hostname, entrypoint := sc.entrypoint,
            user := sc.user, tty := sc.tty, stdin_open := sc.stdin_open }

/-! ## Project state and operations (`ComposeProject`, `ComposeContainer`) -/

/-- The in-memory `ComposeProject` object: name, the parsed config (working
directory and the `services` mapping) and the `_network` instance field. -/
structure ComposeProject where
  name : String
  workingDir : String
  services : List (String × ServiceConfig)
  network : Option Network
deriving DecidableEq

/-- The `network_name` property: `{project}_default`. -/
def networkName (projName : String) : String := projName ++ "_default"

/-- The deterministic container name `{project}_{service}_1`. -/
def containerName (projName svcName : String) : String :=
  projName ++ "_" ++ svcName ++ "_1"

/-- `ComposeConfig.get_service` lookup (callers handle the `ValueError`
raised on absence). -/
def lookupService (proj : ComposeProject) (svcName : String) : Option ServiceConfig :=
  (proj.services.find? (fun p => p.1 == svcName)).map (fun p => p.2)

/-- `ComposeContainer.name_without_project`: a truthy service label wins,
otherwise the name is split into `{project}_{service}_{instance}` parts. -/
def nameWithoutProject (c : Container) : String :=
  let sl := (c.serviceLabel.getD "")
  if sl = "" then
    let parts := pySplitStr '_' c.name
    if 3 ≤ parts.length then String.intercalate "_" ((parts.drop 1).dropLast)
    else if parts.length = 2 then parts.getD 1 ""
    else c.name
  else sl

/-- `client.containers.list(all=stopped, filters)`: label filter
`project=<name>`, plus a running-status filter when `stopped` is false. -/
def containersList (st : DockerState) (allFlag : Bool) (projName : String) : List Container :=
  st.containers.filter
    (fun c => c.projectLabel == some projName && (allFlag || c.status == STATUS_RUNNING))

/-- `ComposeProject.containers(service_names, stopped)`: when
`service_names` is truthy (given and non-empty) the result is filtered to
containers whose service label is in the list (an absent label never
matches, as `None in names` is false in Python). -/
def ComposeProject.containers (proj : ComposeProject) (st : DockerState)
    (serviceNames : Option (List String)) (stopped : Bool) : List Container :=
  let result := containersList st stopped proj.name
  let names := serviceNames.getD []
  if names.isEmpty then result
  else
    result.filter (fun c =>
      match c.serviceLabel with
      | some s => names.contains s
      | none => false)

/-- `_get_or_create_network`.  The `_network` instance field is returned
when set; otherwise lookup by name, and on `NotFound` a create call whose
outcome is the `createErr` input (`some msg` models `APIError(msg)` raised
by the daemon, e.g. when another process created the network first; the
source has no handler around the create call, so that error is returned).
Results: python-result, updated project object, updated daemon state and
the runtime calls performed. -/
def getOrCreateNetwork (proj : ComposeProject) (st : DockerState) (createErr : Option String) :
    Except PyErr (ComposeProject × Network) × DockerState × List RuntimeCall :=
  match proj.network with
  | some nw => (.ok (proj, nw), st, [])
  | none =>
    match networksGet st (networkName proj.name) with
    | some nw =>
      (.ok ({ proj with network := some nw }, nw), st,
       [.networkGet (networkName proj.name)])
    | none =>
      match createErr with
      | some m =>
        (.error (.dockerAPIError m), st,
         [.networkGet (networkName proj.name), .networkCreate (networkName proj.name)])
      | none =>
        (.ok ({ proj with network := some { name := networkName proj.name } },
              { name := networkName proj.name }),
         { st with networks := st.networks ++ [{ name := networkName proj.name }] },
         [.networkGet (networkName proj.name), .networkCreate (networkName proj.name)])

/-- The keyword arguments passed to `client.containers.run`. -/
structure RunKwargs where
  name : String
  detach : Bool
  labels : List (String × String)
  image : String
  command : Option String
  environment : Option (List (String × String))
  ports : Option (List (String × PortBinding))
  volumes : Option (List (String × String × String))
  network_mode : Option String
  working_dir : Option String
  hostname : Option String
  entrypoint : Option String
  user : Option String
  tty : Option Bool
  stdin_open : Option Bool
  network : Option String
deriving DecidableEq

/-- `_build_run_kwargs`: parses the service config, raises `ValueError`
when no non-empty image is present, and only then — when no `network_mode`
is given — obtains the project network, defaulting the hostname to the
service name. -/
def buildRunKwargs (proj : ComposeProject) (st : DockerState) (svcName : String)
    (cfg : ServiceConfig) (procEnv : List (String × String)) (netCreateErr : Option String) :
    Except PyErr (ComposeProject × RunKwargs) × DockerState × List RuntimeCall :=
  match parseServiceConfig proj.workingDir procEnv cfg with
  | .error e => (.error e, st, [])
  | .ok cc =>
    if cc.image.getD "" = "" then
      (.error (.valueError ("Service " ++ svcName ++ " has no valid image")), st, [])
    else
      let base : RunKwargs :=
        { name := containerName proj.name svcName, detach := true,
          labels := [(LABEL_PROJECT, proj.name), (LABEL_SERVICE, svcName)],
          image := cc.image.getD "", command := cc.command,
          environment := cc.environment, ports := cc.ports, volumes := cc.volumes,
          network_mode := cc.network_mode, working_dir := cc.working_dir,
          hostname := cc.hostname, entrypoint := cc.entrypoint, user := cc.user,
          tty := cc.tty, stdin_open := cc.stdin_open, network := none }
      match cc.network_mode with
      | some _ => (.ok (proj, base), st, [])
      | none =>
        match getOrCreateNetwork proj st netCreateErr with
        | (.error e, st2, calls) => (.error e, st2, calls)
        | (.ok (proj2, nw), st2, calls) =>
          (.ok (proj2,
                { base with
                  network := some nw.name,
                  hostname := if cc.hostname.isNone then some svcName else cc.hostname }),
           st2, calls)

/-- Nondeterministic runtime responses during `_start_service`:
`netCreateErr` feeds `_get_or_create_network`; `runErr` is an `APIError`
from `containers.run`; `runStatus` and `runLogs` are what
`container.reload()` / `container.logs()` observe right after the run. -/
structure RunBehavior where
  netCreateErr : Option String := none
  runErr : Option String := none
  runStatus : String := STATUS_RUNNING
  runLogs : String := ""
deriving DecidableEq

/-- `_start_service` (with `_get_existing_container` and
`_verify_container_running` inlined as in the call graph).  An existing
container with the deterministic name is started when not running and
returned; otherwise kwargs are built, the container is run, and a single
status re-query decides between returning the handle and raising
`RuntimeError` with the last 500 characters of the logs. -/
def startServiceModel (proj : ComposeProject) (st : DockerState) (svcName : String)
    (procEnv : List (String × String)) (beh : RunBehavior) :
    Except PyErr (ComposeProject × Container) × DockerState × List RuntimeCall :=
  let cname := containerName proj.name svcName
  match containersGet st cname with
  | some c =>
    if c.status == STATUS_RUNNING then
      (.ok (proj, c), st, [.containerGet cname])
    else
      (.ok (proj, { c with status := STATUS_RUNNING }),
       setStatus st cname STATUS_RUNNING,
       [.containerGet cname, .containerStart cname])
  | none =>
    match lookupService proj svcName with
    | none =>
      (.error (.valueError ("Service " ++ svcName ++ " not found in compose file")), st,
       [.containerGet cname])
    | some cfg =>
      match buildRunKwargs proj st svcName cfg procEnv beh.netCreateErr with
      | (.error e, st2, calls) => (.error e, st2, .containerGet cname :: calls)
      | (.ok (proj2, _), st2, calls) =>
        match beh.runErr with
        | some m =>
          (.error (.runtimeError ("Failed to start service " ++ svcName ++ ": " ++ m)), st2,
           (.containerGet cname :: calls) ++ [.containerCreate cname])
        | none =>
          let newC : Container :=
            { name := cname, projectLabel := some proj.name, serviceLabel := some svcName,
              status := beh.runStatus, logs := beh.runLogs }
          let st3 := { st2 with containers := st2.containers ++ [newC] }
          let baseCalls :=
            (.containerGet cname :: calls) ++ [.containerCreate cname, .statusReload cname]
          if beh.runStatus == STATUS_RUNNING then
            (.ok (proj2, newC), st3, baseCalls)
          else
            (.error (.runtimeError
                ("Service " ++ svcName ++ " exited immediately. Logs: "
                  ++ pyTakeLast 500 beh.runLogs)),
             st3, baseCalls ++ [.logsFetch cname])

/-! ## Teardown (`down`, `_remove_network`) -/

/-- Docker errors that the daemon may raise from stop/remove calls. -/
inductive DockerErrKind where
  | notFound (msg : String) : DockerErrKind
  | apiError (msg : String) : DockerErrKind
deriving DecidableEq

def DockerErrKind.toPyErr : DockerErrKind → PyErr
  | .notFound m => .dockerNotFound m
  | .apiError m => .dockerAPIError m

/-- Per-call runtime failures injected during teardown (a `none` entry means
the call succeeds). -/
structure TeardownBehavior where
  stopErr : String → Option DockerErrKind := fun _ => none
  removeErr : String → Option DockerErrKind := fun _ => none
  netRemoveErr : Option DockerErrKind := none

/-- Raw `container.stop()` as the daemon executes it. -/
def dockerContainerStopRaw (st : DockerState) (n : String) (err : Option DockerErrKind) :
    Except PyErr DockerState :=
  match err with
  | some e => .error e.toPyErr
  | none => .ok (setStatus st n STATUS_EXITED)

/-- Raw `container.remove(force=True, v=...)` as the daemon executes it. -/
def dockerContainerRemoveRaw (st : DockerState) (n : String) (err : Option DockerErrKind) :
    Except PyErr DockerState :=
  match err with
  | some e => .error e.toPyErr
  | none => .ok { st with containers := st.containers.filter (fun c => !(c.name == n)) }

/-- `ComposeContainer.stop`: `except docker.errors.APIError: pass`
(`NotFound` is a subclass, so every docker error is swallowed). -/
def composeContainerStop (st : DockerState) (n : String) (err : Option DockerErrKind) :
    Except PyErr DockerState :=
  match dockerContainerStopRaw st n err with
  | .error e => if isDockerErrPy e then .ok st else .error e
  | .ok st2 => .ok st2

/-- `ComposeContainer.remove`: `except (NotFound, APIError): pass`. -/
def composeContainerRemove (st : DockerState) (n : String) (err : Option DockerErrKind) :
    Except PyErr DockerState :=
  match dockerContainerRemoveRaw st n err with
  | .error e => if isDockerErrPy e then .ok st else .error e
  | .ok st2 => .ok st2

/-- The body of `down`'s loop for one container, with the outer
`except (NotFound, APIError): pass` of `down` itself. -/
def downStep (beh : TeardownBehavior) (acc : Except PyErr DockerState) (c : Container) :
    Except PyErr DockerState :=
  match acc with
  | .error e => .error e
  | .ok st0 =>
    match composeContainerStop st0 c.name (beh.stopErr c.name) with
    | .error e => if isDockerErrPy e then .ok st0 else .error e
    | .ok st1 =>
      match composeContainerRemove st1 c.name (beh.removeErr c.name) with
      | .error e => if isDockerErrPy e then .ok st1 else .error e
      | .ok st2 => .ok st2

/-- `_remove_network`: lookup + remove inside
`except (NotFound, APIError): pass`, then `_network = None`
unconditionally. -/
def removeNetworkModel (proj : ComposeProject) (st : DockerState)
    (err : Option DockerErrKind) : ComposeProject × Except PyErr DockerState :=
  ({ proj with network := none },
   match networksGet st (networkName proj.name) with
   | none => .ok st
   | some _ =>
     match err with
     | some e => if isDockerErrPy e.toPyErr then .ok st else .error e.toPyErr
     | none =>
       .ok { st with networks :=
              st.networks.filter (fun k => !(k.name == networkName proj.name)) })

/-- `ComposeProject.down`: enumerate all project containers (stopped
included), stop and force-remove each, then remove the network. -/
def composeDown (proj : ComposeProject) (st : DockerState) (beh : TeardownBehavior) :
    Except PyErr Unit × ComposeProject × DockerState :=
  match (proj.containers st none true).foldl (downStep beh) (.ok st) with
  | .error e => (.error e, proj, st)
  | .ok st1 =>
    match (removeNetworkModel proj st1 beh.netRemoveErr).2 with
    | .error e => (.error e, (removeNetworkModel proj st1 beh.netRemoveErr).1, st1)
    | .ok st2 => (.ok (), (removeNetworkModel proj st1 beh.netRemoveErr).1, st2)

/-! ## Concrete instances used by witnesses and counterexamples -/

/-- A project named `proj` with no cached network and no services. -/
def projPlain : ComposeProject :=
  { name := "proj", workingDir := "/wd", services := [], network := none }

/-- An exited container carrying the deterministic name and labels for
service `web` of project `proj`. -/
def contExited : Container :=
  { name := "proj_web_1", projectLabel := some "proj", serviceLabel := some "web",
    status := "exited", logs := "" }

def stExited : DockerState := { containers := [contExited], networks := [] }

/-- A running project container named `proj_web_1` with NO service label. -/
def contNoLabel : Container :=
  { name := "proj_web_1", projectLabel := some "proj", serviceLabel := none,
    status := "running", logs := "" }

def stNoLabel : DockerState := { containers := [contNoLabel], networks := [] }

/-- A running project container WITH the service label `web`. -/
def contLabeled : Container :=
  { name := "proj_web_1", projectLabel := some "proj", serviceLabel := some "web",
    status := "running", logs := "" }

def stLabeled : DockerState := { containers := [contLabeled], networks := [] }

def stEmpty : DockerState := { containers := [], networks := [] }

/-- A project whose `_network` field caches a handle. -/
def projCached : ComposeProject :=
  { name := "proj", workingDir := "/wd", services := [],
    network := some { name := "proj_default" } }

/-- A project declaring one service `web` with image `busybox`. -/
def projWeb : ComposeProject :=
  { name := "proj", workingDir := "/wd",
    services := [("web", { image := some "busybox" })], network := none }

/-- A project declaring one service `bad` whose spec has no image. -/
def projNoImage : ComposeProject :=
  { name := "proj", workingDir := "/wd", services := [("bad", {})], network := none }

/-- A process environment in which the value of `FOO` itself looks like a
variable reference. -/
def envChain : List (String × String) := [("FOO", "$BAR"), ("BAR", "x")]

/-! # Theorems -/

/-! ## Generic helper lemmas -/

theorem strMkData (s : String) : String.mk s.data = s := rfl

theorem strDataEqNil (s : String) : s.data = [] ↔ s = "" := by
  constructor
  · intro h
    have := congrArg String.mk h
    rwa [strMkData] at this
  · intro h
    rw [h]

theorem strDataAppend (a b : String) : (a ++ b).data = a.data ++ b.data := by
  cases a
  cases b
  rfl

theorem pySplit_not_mem (sep : Char) (l : List Char) (h : sep ∉ l) : pySplit sep l = [l] := by
  induction l with
  | nil => rfl
  | cons c cs ih =>
    simp only [List.mem_cons, not_or] at h
    have hc : ¬ c = sep := fun hh => h.1 hh.symm
    simp only [pySplit, if_neg hc, ih h.2]

theorem pySplit_append (sep : Char) (a b : List Char) (h : sep ∉ a) :
    pySplit sep (a ++ sep :: b) = a :: pySplit sep b := by
  induction a with
  | nil => simp [pySplit]
  | cons c cs ih =>
    simp only [List.mem_cons, not_or] at h
    have hc : ¬ c = sep := fun hh => h.1 hh.symm
    simp only [List.cons_append, pySplit, if_neg hc, List.append_eq, ih h.2]

theorem splitOnce_none (p : Char) (rest : List Char) (l : List Char) (h : p ∉ l) :
    splitOnce (p :: rest) l = none := by
  induction l with
  | nil => rfl
  | cons c cs ih =>
    simp only [List.mem_cons, not_or] at h
    have hpre : ((p :: rest).isPrefixOf (c :: cs)) = false := by
      simp only [List.isPrefixOf, Bool.and_eq_false_iff]
      left
      simp only [beq_eq_false_iff_ne, ne_eq]
      exact h.1
    simp only [splitOnce, hpre, Bool.false_eq_true, if_false, ih h.2]

theorem splitOnce_dash (a b : List Char) (h : '-' ∉ a) :
    splitOnce ['-'] (a ++ '-' :: b) = some (a, b) := by
  induction a with
  | nil => simp [splitOnce, List.isPrefixOf]
  | cons c cs ih =>
    simp only [List.mem_cons, not_or] at h
    have hpre : ((['-'] : List Char).isPrefixOf (c :: (cs ++ '-' :: b))) = false := by
      simp only [List.isPrefixOf, beq_eq_false_iff_ne, ne_eq, Bool.and_eq_false_iff]
      left
      exact h.1
    simp only [List.cons_append, splitOnce, List.append_eq, hpre, Bool.false_eq_true,
      if_false, ih h.2]

theorem splitOnce_colon_dash (a b : List Char) (h : ':' ∉ a) :
    splitOnce [':', '-'] (a ++ ':' :: '-' :: b) = some (a, b) := by
  induction a with
  | nil => simp [splitOnce, List.isPrefixOf]
  | cons c cs ih =>
    simp only [List.mem_cons, not_or] at h
    have hpre : (([':', '-'] : List Char).isPrefixOf (c :: (cs ++ ':' :: '-' :: b))) = false := by
      simp only [List.isPrefixOf, beq_eq_false_iff_ne, ne_eq, Bool.and_eq_false_iff]
      left
      exact h.1
    simp only [List.cons_append, splitOnce, List.append_eq, hpre, Bool.false_eq_true,
      if_false, ih h.2]

/-! ## Lemmas about the substitution scanners -/

theorem foldl_bracedStep_collect (env : List (String × String)) (l : List Char)
    (h : rbrace ∉ l) :
    ∀ out buf, l.foldl (bracedStep env) { out := out, mode := .collect buf } =
      { out := out, mode := .collect (l.reverse ++ buf) } := by
  induction l with
  | nil => intro out buf; rfl
  | cons c cs ih =>
    intro out buf
    simp only [List.mem_cons, not_or] at h
    have hc : ¬ c = rbrace := fun hh => h.1 hh.symm
    simp only [List.foldl_cons, bracedStep, if_neg hc]
    rw [ih h.2]
    simp

theorem foldl_bracedStep_copy (env : List (String × String)) (l : List Char)
    (h : '$' ∉ l) :
    ∀ out, l.foldl (bracedStep env) { out := out, mode := .copy } =
      { out := out ++ l, mode := .copy } := by
  induction l with
  | nil => intro out; simp
  | cons c cs ih =>
    intro out
    simp only [List.mem_cons, not_or] at h
    have hc : ¬ c = '$' := fun hh => h.1 hh.symm
    simp only [List.foldl_cons, bracedStep, if_neg hc]
    rw [ih h.2]
    simp

theorem subBraced_no_dollar (env : List (String × String)) (l : List Char) (h : '$' ∉ l) :
    subBraced env l = l := by
  unfold subBraced
  rw [foldl_bracedStep_copy env l h []]
  simp [bracedFlush]

/-- The braced pass on a complete single match `$\x7b mid \x7d`: the
replacement is the whole output. -/
theorem subBraced_single (env : List (String × String)) (mid : List Char)
    (hne : mid ≠ []) (h : rbrace ∉ mid) :
    subBraced env ('$' :: lbrace :: (mid ++ [rbrace])) = replaceBraced env mid := by
  unfold subBraced
  have h1 : bracedStep env { out := [], mode := .copy } '$' = { out := [], mode := .dollar } := by
    simp [bracedStep]
  have h2 : bracedStep env { out := [], mode := .dollar } lbrace
      = { out := [], mode := .collect [] } := by
    simp [bracedStep]
  simp only [List.foldl_cons, h1, h2]
  rw [List.foldl_append, foldl_bracedStep_collect env mid h [] []]
  have hbuf : mid.reverse.isEmpty = false := by
    cases hm : mid.reverse with
    | nil => exact absurd (List.reverse_eq_nil_iff.mp hm) hne
    | cons x xs => rfl
  have h3 : bracedStep env { out := [], mode := .collect (mid.reverse ++ []) } rbrace
      = { out := replaceBraced env mid, mode := .copy } := by
    simp only [bracedStep, List.append_nil, if_pos rfl, hbuf, Bool.false_eq_true, if_false,
      List.reverse_reverse, List.nil_append, if_true]
  simp only [List.foldl_cons, List.foldl_nil, h3]
  rfl

theorem foldl_simpleStep_copy (env : List (String × String)) (l : List Char)
    (h : '$' ∉ l) :
    ∀ out, l.foldl (simpleStep env) { out := out, mode := .copy } =
      { out := out ++ l, mode := .copy } := by
  induction l with
  | nil => intro out; simp
  | cons c cs ih =>
    intro out
    simp only [List.mem_cons, not_or] at h
    have hc : ¬ c = '$' := fun hh => h.1 hh.symm
    simp only [List.foldl_cons, simpleStep, if_neg hc]
    rw [ih h.2]
    simp

theorem subSimple_no_dollar (env : List (String × String)) (l : List Char) (h : '$' ∉ l) :
    subSimple env l = l := by
  unfold subSimple
  rw [foldl_simpleStep_copy env l h []]
  simp [simpleFlush]

theorem foldl_simpleStep_ident (env : List (String × String)) (l : List Char)
    (h : ∀ c ∈ l, isIdentCont c = true) :
    ∀ out buf, l.foldl (simpleStep env) { out := out, mode := .ident buf } =
      { out := out, mode := .ident (l.reverse ++ buf) } := by
  induction l with
  | nil => intro out buf; rfl
  | cons c cs ih =>
    intro out buf
    have hc : isIdentCont c = true := h c (List.mem_cons_self c cs)
    have hcs : ∀ x ∈ cs, isIdentCont x = true := fun x hx => h x (List.mem_cons_of_mem c hx)
    simp only [List.foldl_cons, simpleStep, hc, if_pos rfl, if_true]
    rw [ih hcs]
    simp

/-- A character in the identifier class is none of the expansion
metacharacters. -/
theorem identCont_meta (c : Char) (h : isIdentCont c = true) :
    c ≠ '$' ∧ c ≠ lbrace ∧ c ≠ rbrace ∧ c ≠ ':' ∧ c ≠ '-' := by
  refine ⟨?_, ?_, ?_, ?_, ?_⟩ <;> intro hc <;> rw [hc] at h <;> revert h <;> decide

theorem identStart_cont (c : Char) (h : isIdentStart c = true) : isIdentCont c = true := by
  simp [isIdentCont, h]

/-! ## Lemmas about `replaceBraced` -/

/-- The `VAR-default` branch of `_replace_braced`: a set variable wins even
when its value is empty; the default is used only when unset. -/
theorem replaceBraced_dash (env : List (String × String)) (n d : String)
    (hne : n ≠ "") (hd : '-' ∉ n.data) (hc1 : ':' ∉ n.data) (hc2 : ':' ∉ d.data) :
    replaceBraced env (n.data ++ '-' :: d.data) =
      (match envGet env n with
       | some v => v.data
       | none => d.data) := by
  have hcolon : ':' ∉ (n.data ++ '-' :: d.data) := by
    simp only [List.mem_append, List.mem_cons, not_or]
    refine ⟨hc1, ?_, hc2⟩
    decide
  have hso : splitOnce [':', '-'] (n.data ++ '-' :: d.data) = none :=
    splitOnce_none ':' ['-'] _ hcolon
  have hdata : n.data ≠ [] := fun hh => hne ((strDataEqNil n).mp hh)
  have hhead : (n.data ++ '-' :: d.data).head? ≠ some '-' := by
    cases hn : n.data with
    | nil => exact absurd hn hdata
    | cons c cs =>
      simp only [hn, List.cons_append, List.head?_cons]
      intro hh
      have hc2 : c = '-' := by injection hh
      rw [hn, hc2] at hd
      exact hd (List.mem_cons_self '-' _)
  rw [replaceBraced.eq_def]
  simp only [hso]
  rw [if_neg hhead, splitOnce_dash n.data d.data hd, strMkData]

/-- The `VAR:-default` branch of `_replace_braced`: the variable's value
whenever set (empty included), the default otherwise. -/
theorem replaceBraced_colon_dash (env : List (String × String)) (n d : String)
    (hc1 : ':' ∉ n.data) :
    replaceBraced env (n.data ++ ':' :: '-' :: d.data) = ((envGet env n).getD d).data := by
  rw [replaceBraced.eq_def]
  simp only [splitOnce_colon_dash n.data d.data hc1, strMkData]

/-- The bare `$\x7bVAR\x7d` branch: value or empty string. -/
theorem replaceBraced_plain (env : List (String × String)) (n : String)
    (hne : n ≠ "") (hd : '-' ∉ n.data) (hc : ':' ∉ n.data) :
    replaceBraced env n.data = ((envGet env n).getD "").data := by
  have hso : splitOnce [':', '-'] n.data = none := splitOnce_none ':' ['-'] _ hc
  have hso2 : splitOnce ['-'] n.data = none := splitOnce_none '-' [] _ hd
  have hdata : n.data ≠ [] := fun hh => hne ((strDataEqNil n).mp hh)
  have hhead : n.data.head? ≠ some '-' := by
    cases hn : n.data with
    | nil => exact absurd hn hdata
    | cons c cs =>
      simp only [hn, List.head?_cons]
      intro hh
      have hc2 : c = '-' := by injection hh
      rw [hn, hc2] at hd
      exact hd (List.mem_cons_self '-' _)
  rw [replaceBraced.eq_def]
  simp only [hso, hso2]
  rw [if_neg hhead, strMkData]

/-! ## Identifier-string facts -/

theorem identStr_parts (s : String) (h : isIdentStr s = true) :
    s ≠ "" ∧ ∀ c ∈ s.data, isIdentCont c = true := by
  unfold isIdentStr at h
  cases hs : s.data with
  | nil => rw [hs] at h; exact absurd h (by decide)
  | cons c cs =>
    rw [hs] at h
    simp only [Bool.and_eq_true, List.all_eq_true] at h
    refine ⟨fun hh => ?_, fun x hx => ?_⟩
    · rw [hh] at hs
      simp at hs
    · rcases List.mem_cons.mp hx with h1 | h2
      · rw [h1]; exact identStart_cont c h.1
      · exact h.2 x h2

theorem identStr_no_meta (s : String) (h : isIdentStr s = true) :
    '$' ∉ s.data ∧ lbrace ∉ s.data ∧ rbrace ∉ s.data ∧ ':' ∉ s.data ∧ '-' ∉ s.data := by
  obtain ⟨-, hall⟩ := identStr_parts s h
  refine ⟨?_, ?_, ?_, ?_, ?_⟩
  · intro hm; exact (identCont_meta '$' (hall _ hm)).1 rfl
  · intro hm; exact (identCont_meta lbrace (hall _ hm)).2.1 rfl
  · intro hm; exact (identCont_meta rbrace (hall _ hm)).2.2.1 rfl
  · intro hm; exact (identCont_meta ':' (hall _ hm)).2.2.2.1 rfl
  · intro hm; exact (identCont_meta '-' (hall _ hm)).2.2.2.2 rfl

/-- The bare-`$VAR` pass on `$` followed by a full identifier: the variable
is resolved (empty string when unset) and the value is emitted verbatim. -/
theorem subSimple_dollar_ident (env : List (String × String)) (inner : String)
    (h : isIdentStr inner = true) :
    subSimple env ('$' :: inner.data) = ((envGet env inner).getD "").data := by
  have h2 := h
  unfold isIdentStr at h2
  unfold subSimple
  cases hs : inner.data with
  | nil => rw [hs] at h2; exact absurd h2 (by decide)
  | cons c cs =>
    rw [hs] at h2
    simp only [Bool.and_eq_true, List.all_eq_true] at h2
    have s1 : simpleStep env { out := [], mode := .copy } '$'
        = { out := [], mode := .dollar } := by
      simp [simpleStep]
    have s2 : simpleStep env { out := [], mode := .dollar } c
        = { out := [], mode := .ident [c] } := by
      simp [simpleStep, h2.1]
    simp only [List.foldl_cons, s1, s2]
    rw [foldl_simpleStep_ident env cs h2.2 [] [c]]
    simp only [simpleFlush, identValue, List.nil_append, List.reverse_append,
      List.reverse_reverse, List.reverse_cons, List.reverse_nil, List.singleton_append]
    have hmk : (String.mk (c :: cs)) = inner := by rw [← hs, strMkData]
    rw [hmk]

/-- The braced pass leaves `$` followed by brace-free dollar-free text
unchanged (the braced pattern cannot match). -/
theorem subBraced_dollar_plain (env : List (String × String)) (l : List Char)
    (hne : l ≠ []) (hd : '$' ∉ l) (hb : lbrace ∉ l) :
    subBraced env ('$' :: l) = '$' :: l := by
  cases hl : l with
  | nil => exact absurd hl hne
  | cons c cs =>
    subst hl
    simp only [List.mem_cons, not_or] at hd hb
    unfold subBraced
    have s1 : bracedStep env { out := [], mode := .copy } '$'
        = { out := [], mode := .dollar } := by
      simp [bracedStep]
    have s2 : bracedStep env { out := [], mode := .dollar } c
        = { out := ['$', c], mode := .copy } := by
      have hc1 : ¬ c = lbrace := fun hh => hb.1 hh.symm
      have hc2 : ¬ c = '$' := fun hh => hd.1 hh.symm
      simp [bracedStep, hc1, hc2]
    simp only [List.foldl_cons, s1, s2]
    rw [foldl_bracedStep_copy env cs hd.2 ['$', c]]
    simp [bracedFlush]

/-- C4: on the `VAR-default` and `VAR:-default` braced forms, a variable
that is set in the process environment — even to the empty string — wins,
and the default is used exactly when the variable is unset. -/
theorem claim_C4_default_forms (env : List (String × String)) (name dflt v : String)
    (hne : name ≠ "") (hd : '-' ∉ name.data) (hc1 : ':' ∉ name.data)
    (hr1 : rbrace ∉ name.data) (hr2 : rbrace ∉ dflt.data) (hc2 : ':' ∉ dflt.data)
    (hdd : '$' ∉ dflt.data) :
    (envGet env name = some v → '$' ∉ v.data →
        expandEnvVars env (bracedDash name dflt) = v)
  ∧ (envGet env name = none → expandEnvVars env (bracedDash name dflt) = dflt)
  ∧ (envGet env name = some v → '$' ∉ v.data →
        expandEnvVars env (bracedColonDash name dflt) = v)
  ∧ (envGet env name = none → expandEnvVars env (bracedColonDash name dflt) = dflt) := by
  have hmid1 : rbrace ∉ (name.data ++ '-' :: dflt.data) := by
    simp only [List.mem_append, List.mem_cons, not_or]
    exact ⟨hr1, by decide, hr2⟩
  have hmidne1 : (name.data ++ '-' :: dflt.data) ≠ [] := by simp
  have hdata1 : (bracedDash name dflt).data
      = '$' :: lbrace :: ((name.data ++ '-' :: dflt.data) ++ [rbrace]) := by
    simp [bracedDash]
  have hsb1 : subBraced env (bracedDash name dflt).data
      = replaceBraced env (name.data ++ '-' :: dflt.data) := by
    rw [hdata1, subBraced_single env _ hmidne1 hmid1]
  have hmid2 : rbrace ∉ (name.data ++ ':' :: '-' :: dflt.data) := by
    simp only [List.mem_append, List.mem_cons, not_or]
    exact ⟨hr1, by decide, by decide, hr2⟩
  have hmidne2 : (name.data ++ ':' :: '-' :: dflt.data) ≠ [] := by simp
  have hdata2 : (bracedColonDash name dflt).data
      = '$' :: lbrace :: ((name.data ++ ':' :: '-' :: dflt.data) ++ [rbrace]) := by
    simp [bracedColonDash]
  have hsb2 : subBraced env (bracedColonDash name dflt).data
      = replaceBraced env (name.data ++ ':' :: '-' :: dflt.data) := by
    rw [hdata2, subBraced_single env _ hmidne2 hmid2]
  refine ⟨fun hv hv2 => ?_, fun hn => ?_, fun hv hv2 => ?_, fun hn => ?_⟩
  · unfold expandEnvVars
    rw [hsb1, replaceBraced_dash env name dflt hne hd hc1 hc2, hv,
      subSimple_no_dollar env v.data hv2, strMkData]
  · unfold expandEnvVars
    rw [hsb1, replaceBraced_dash env name dflt hne hd hc1 hc2, hn,
      subSimple_no_dollar env dflt.data hdd, strMkData]
  · unfold expandEnvVars
    rw [hsb2, replaceBraced_colon_dash env name dflt hc1, hv]
    simp only [Option.getD_some]
    rw [subSimple_no_dollar env v.data hv2, strMkData]
  · unfold expandEnvVars
    rw [hsb2, replaceBraced_colon_dash env name dflt hc1, hn]
    simp only [Option.getD_none]
    rw [subSimple_no_dollar env dflt.data hdd, strMkData]

/-- C4 witness: concrete evaluations, including `FOO` set to the empty
string (distinct from unset). -/
theorem claim_C4_witness :
    expandEnvVars [("FOO", "")] (bracedDash "FOO" "bar") = ""
  ∧ expandEnvVars [] (bracedDash "FOO" "bar") = "bar"
  ∧ expandEnvVars [("FOO", "")] (bracedColonDash "FOO" "bar") = ""
  ∧ expandEnvVars [("FOO", "baz")] (bracedColonDash "FOO" "bar") = "baz" := by
  refine ⟨?_, ?_, ?_, ?_⟩
  · exact (claim_C4_default_forms [("FOO", "")] "FOO" "bar" "" (by decide) (by decide)
      (by decide) (by decide) (by decide) (by decide) (by decide)).1 (by decide) (by decide)
  · exact (claim_C4_default_forms [] "FOO" "bar" "" (by decide) (by decide)
      (by decide) (by decide) (by decide) (by decide) (by decide)).2.1 (by decide)
  · exact (claim_C4_default_forms [("FOO", "")] "FOO" "bar" "" (by decide) (by decide)
      (by decide) (by decide) (by decide) (by decide) (by decide)).2.2.1 (by decide) (by decide)
  · exact (claim_C4_default_forms [("FOO", "baz")] "FOO" "bar" "baz" (by decide) (by decide)
      (by decide) (by decide) (by decide) (by decide) (by decide)).2.2.1 (by decide) (by decide)

/-- C5 counterexample: with `FOO` set to the text `$BAR` and `BAR` set to
`x`, expanding the braced reference to `FOO` yields `x` — the dollar text
introduced by the braced substitution IS re-expanded by the bare-`$VAR`
pass, so the claim's no-double-substitution property is false on the code. -/
theorem claim_C5_counterexample :
    expandEnvVars envChain (bracedVar "FOO") = "x"
  ∧ envGet envChain "FOO" = some "$BAR" :=
  ⟨by decide, by decide⟩

/-- C5 (amended): the braced pass runs before the bare-`$VAR` pass and
neither pass rescans its own replacement text, but `$NAME` text introduced
by the braced pass is expanded by the subsequent bare pass: a braced
reference whose value is `$inner` resolves through to `inner`'s value,
while a bare `$name` reference with the same value emits the text `$inner`
verbatim (no rescan within the bare pass). -/
theorem claim_C5_passes (env : List (String × String)) (name inner w : String)
    (h1 : isIdentStr name = true) (h2 : isIdentStr inner = true)
    (h3 : envGet env name = some (String.mk ('$' :: inner.data)))
    (h4 : envGet env inner = some w) :
    expandEnvVars env (bracedVar name) = w
  ∧ expandEnvVars env (String.mk ('$' :: name.data)) = String.mk ('$' :: inner.data) := by
  obtain ⟨hnne, -⟩ := identStr_parts name h1
  obtain ⟨hid, hib, hirb, hic, him⟩ := identStr_no_meta name h1
  have hnamedata : name.data ≠ [] := fun hh => hnne ((strDataEqNil name).mp hh)
  have hdata1 : (bracedVar name).data = '$' :: lbrace :: (name.data ++ [rbrace]) := by
    simp [bracedVar]
  constructor
  · unfold expandEnvVars
    rw [hdata1, subBraced_single env name.data hnamedata hirb,
      replaceBraced_plain env name hnne him hic, h3]
    simp only [Option.getD_some]
    rw [subSimple_dollar_ident env inner h2, h4]
    simp only [Option.getD_some]
  · unfold expandEnvVars
    have hdat : (String.mk ('$' :: name.data)).data = '$' :: name.data := rfl
    rw [hdat, subBraced_dollar_plain env name.data hnamedata hid hib,
      subSimple_dollar_ident env name h1, h3]
    simp only [Option.getD_some]

/-- C5 witness for the amended statement. -/
theorem claim_C5_witness :
    expandEnvVars [("A", "$B"), ("B", "x")] (bracedVar "A") = "x"
  ∧ expandEnvVars [("A", "$B"), ("B", "x")] (String.mk ('$' :: "A".data))
      = String.mk ('$' :: "B".data) := by
  have h := claim_C5_passes [("A", "$B"), ("B", "x")] "A" "B" "x"
    (by decide) (by decide) (by decide) (by decide)
  exact ⟨h.1, h.2⟩

/-! ## C8: port normalization -/

theorem pySplitStr_one (p : String) (h : ':' ∉ p.data) : pySplitStr ':' p = [p] := by
  unfold pySplitStr
  rw [pySplit_not_mem ':' p.data h]
  simp only [List.map_cons, List.map_nil, strMkData]

theorem pySplitStr_two (hp cp : String) (h1 : ':' ∉ hp.data) (h2 : ':' ∉ cp.data) :
    pySplitStr ':' (hp ++ ":" ++ cp) = [hp, cp] := by
  unfold pySplitStr
  have hd : (hp ++ ":" ++ cp).data = hp.data ++ ':' :: cp.data := by
    rw [strDataAppend, strDataAppend, List.append_assoc]
    rfl
  rw [hd, pySplit_append ':' hp.data cp.data h1, pySplit_not_mem ':' cp.data h2]
  simp only [List.map_cons, List.map_nil, strMkData]

theorem pySplitStr_three (ip hp cp : String) (h1 : ':' ∉ ip.data) (h2 : ':' ∉ hp.data)
    (h3 : ':' ∉ cp.data) :
    pySplitStr ':' (ip ++ ":" ++ hp ++ ":" ++ cp) = [ip, hp, cp] := by
  unfold pySplitStr
  have hd : (ip ++ ":" ++ hp ++ ":" ++ cp).data
      = ip.data ++ ':' :: (hp.data ++ ':' :: cp.data) := by
    rw [strDataAppend, strDataAppend, strDataAppend, strDataAppend]
    simp
  rw [hd, pySplit_append ':' ip.data _ h1, pySplit_append ':' hp.data cp.data h2,
    pySplit_not_mem ':' cp.data h3]
  simp only [List.map_cons, List.map_nil, strMkData]

/-- C8: each ports entry is stringified and split on a colon; one segment
gives a container port with no host binding, two segments give
host:container with the host segment parsed to an int exactly when it is
numeric, and three segments give an (ip, host-port) tuple whose host port
is None when the segment is empty and its integer value when it parses. -/
theorem claim_C8_ports (p hp cp ip : String) (m : Int) :
    (parsePorts [.int m] = parsePorts [.str (toString m)])
  ∧ (':' ∉ p.data → parsePorts [.str p] = .ok [(p, .noBind)])
  ∧ (':' ∉ hp.data → ':' ∉ cp.data →
      parsePorts [.str (hp ++ ":" ++ cp)] =
        .ok [(cp, if isPyDigits hp then PortBinding.hostInt (Int.ofNat (digitsToNat hp.data))
                  else PortBinding.hostStr hp)])
  ∧ (':' ∉ ip.data → ':' ∉ cp.data →
      parsePorts [.str (ip ++ ":" ++ "" ++ ":" ++ cp)] = .ok [(cp, .ipPort ip none)])
  ∧ (∀ n : Int, ':' ∉ ip.data → ':' ∉ hp.data → ':' ∉ cp.data → hp ≠ "" → pyInt hp = some n →
      parsePorts [.str (ip ++ ":" ++ hp ++ ":" ++ cp)] = .ok [(cp, .ipPort ip (some n))]) := by
  refine ⟨rfl, fun h1 => ?_, fun h1 h2 => ?_, fun h1 h3 => ?_, fun n h1 h2 h3 h4 h5 => ?_⟩
  · unfold parsePorts parsePortsAux parsePortEntry
    simp only [pyStr, pySplitStr_one p h1]
    rfl
  · unfold parsePorts parsePortsAux parsePortEntry
    simp only [pyStr, pySplitStr_two hp cp h1 h2]
    rfl
  · unfold parsePorts parsePortsAux parsePortEntry
    have he : ':' ∉ ("" : String).data := by decide
    simp only [pyStr, pySplitStr_three ip "" cp h1 he h3]
    rfl
  · unfold parsePorts parsePortsAux parsePortEntry
    simp only [pyStr, pySplitStr_three ip hp cp h1 h2 h3]
    rw [if_neg h4, h5]
    rfl

/-- C8 witness: the specification's three concrete examples. -/
theorem claim_C8_witness :
    parsePorts [.str "8080:80"] = .ok [("80", .hostInt 8080)]
  ∧ parsePorts [.str "80"] = .ok [("80", .noBind)]
  ∧ parsePorts [.str "127.0.0.1:8080:80"] = .ok [("80", .ipPort "127.0.0.1" (some 8080))] := by
  refine ⟨?_, ?_, ?_⟩
  · exact ((claim_C8_ports "80" "8080" "80" "127.0.0.1" 0).2.2.1 (by decide)
      (by decide)).trans (by decide)
  · exact (claim_C8_ports "80" "8080" "80" "127.0.0.1" 0).2.1 (by decide)
  · exact (claim_C8_ports "80" "8080" "80" "127.0.0.1" 0).2.2.2.2 8080 (by decide) (by decide)
      (by decide) (by decide) (by decide)

/-! ## C2 and C10: project network -/

/-- C2 counterexample: with no cached handle and no existing network, an
"already exists" `APIError` from the create call is NOT treated as success:
`_get_or_create_network` has no handler around the create call, so the
error propagates to the caller instead of a re-lookup being performed. -/
theorem claim_C2_counterexample :
    getOrCreateNetwork projPlain stEmpty
        (some "network with name proj_default already exists")
      = (.error (.dockerAPIError "network with name proj_default already exists"), stEmpty,
         [.networkGet "proj_default", .networkCreate "proj_default"]) := by
  decide

/-- C2 (amended): the lookup by `{project}_default` is attempted first and
the create call is made only on not-found; any error from the create call —
"already exists" included — propagates unmodified to the caller, with no
re-lookup. -/
theorem claim_C2_create_error_propagates (proj : ComposeProject) (st : DockerState)
    (m : String) (h1 : proj.network = none)
    (h2 : networksGet st (networkName proj.name) = none) :
    getOrCreateNetwork proj st (some m)
      = (.error (.dockerAPIError m), st,
         [.networkGet (networkName proj.name), .networkCreate (networkName proj.name)]) := by
  simp only [getOrCreateNetwork, h1, h2]

/-- C2 witness. -/
theorem claim_C2_witness :
    getOrCreateNetwork projPlain stEmpty (some "exists")
      = (.error (.dockerAPIError "exists"), stEmpty,
         [.networkGet (networkName "proj"), .networkCreate (networkName "proj")]) :=
  claim_C2_create_error_propagates projPlain stEmpty "exists" rfl rfl

/-- C10 counterexample: with a cached `_network` handle, the operation
returns the in-memory handle with an empty runtime-call trace even though
the runtime no longer has any such network — the network object is cached
across calls, not re-read. -/
theorem claim_C10_counterexample :
    getOrCreateNetwork projCached stEmpty none
      = (.ok (projCached, { name := "proj_default" }), stEmpty, [])
  ∧ networksGet stEmpty (networkName projCached.name) = none :=
  ⟨by decide, by decide⟩

/-- C10 (amended): `ComposeProject` caches the network object in its
`_network` field: once set, `_get_or_create_network` returns the cached
handle without performing any runtime call, for every runtime state (the
field is reset only by `_remove_network` during `down()`). -/
theorem claim_C10_network_cached (proj : ComposeProject) (st : DockerState)
    (createErr : Option String) (nw : Network) (h : proj.network = some nw) :
    getOrCreateNetwork proj st createErr = (.ok (proj, nw), st, []) := by
  simp only [getOrCreateNetwork, h]

/-- C10 witness. -/
theorem claim_C10_witness :
    getOrCreateNetwork projCached stLabeled none
      = (.ok (projCached, { name := "proj_default" }), stLabeled, []) :=
  claim_C10_network_cached projCached stLabeled none { name := "proj_default" } rfl

/-! ## C3: containers() service-name filtering -/

/-- C3 counterexample: a running project container without a service label
whose name-derived service is `web` is NOT returned by
`containers(service_names=[web])`, although it is in the project's
unfiltered container list and the claim's label-or-derived-name criterion
includes it. -/
theorem claim_C3_counterexample :
    projPlain.containers stNoLabel (some ["web"]) false = []
  ∧ containersList stNoLabel false "proj" = [contNoLabel]
  ∧ nameWithoutProject contNoLabel = "web" :=
  ⟨by decide, by decide, by decide⟩

/-- C3 (amended): with a non-empty `service_names`, the result consists of
exactly the listed project containers whose SERVICE LABEL is in
`service_names`; a container without the label is never included (the
name-derived fallback of `name_without_project` is not consulted by this
filter). -/
theorem claim_C3_label_filter (proj : ComposeProject) (st : DockerState)
    (names : List String) (stopped : Bool) (c : Container) (h : names ≠ []) :
    c ∈ proj.containers st (some names) stopped ↔
      c ∈ st.containers ∧ c.projectLabel = some proj.name
        ∧ (stopped = true ∨ c.status = STATUS_RUNNING)
        ∧ ∃ s, c.serviceLabel = some s ∧ s ∈ names := by
  unfold ComposeProject.containers containersList
  have hne : names.isEmpty = false := by
    cases names with
    | nil => exact absurd rfl h
    | cons a as => rfl
  simp only [Option.getD_some, hne, Bool.false_eq_true, if_false, List.mem_filter,
    Bool.and_eq_true, beq_iff_eq, Bool.or_eq_true]
  constructor
  · rintro ⟨⟨hmem, hproj, hstat⟩, hmatch⟩
    refine ⟨hmem, hproj, hstat, ?_⟩
    cases hsl : c.serviceLabel with
    | none => rw [hsl] at hmatch; cases hmatch
    | some s =>
      rw [hsl] at hmatch
      exact ⟨s, rfl, by simpa using hmatch⟩
  · rintro ⟨hmem, hproj, hstat, s, hsl, hsn⟩
    refine ⟨⟨hmem, hproj, hstat⟩, ?_⟩
    rw [hsl]
    simpa using hsn

/-- C3 witness for the amended statement: a labeled container is returned. -/
theorem claim_C3_witness :
    contLabeled ∈ projPlain.containers stLabeled (some ["web"]) false :=
  (claim_C3_label_filter projPlain stLabeled ["web"] false contLabeled (by decide)).mpr
    ⟨by decide, by decide, Or.inr rfl, "web", rfl, by decide⟩

/-! ## C1: reuse of an existing deterministic-named container -/

theorem find?_cons_pos (p : Container → Bool) (k : Container) (tl : List Container)
    (h : p k = true) : (k :: tl).find? p = some k := by
  simp [List.find?, h]

theorem find?_cons_neg (p : Container → Bool) (k : Container) (tl : List Container)
    (h : p k = false) : (k :: tl).find? p = tl.find? p := by
  simp [List.find?, h]

theorem map_name_setStatus (l : List Container) (n s : String) :
    (l.map (fun k => if k.name == n then { k with status := s } else k)).map
      (fun k => k.name) = l.map (fun k => k.name) := by
  induction l with
  | nil => rfl
  | cons k tl ih =>
    by_cases hk : (k.name == n) = true
    · simp only [List.map_cons, if_pos hk, ih]
    · simp only [List.map_cons, if_neg hk, ih]

theorem find?_setStatus (l : List Container) (n s : String) (c : Container)
    (h : l.find? (fun k => k.name == n) = some c) :
    (l.map (fun k => if k.name == n then { k with status := s } else k)).find?
      (fun k => k.name == n) = some { c with status := s } := by
  induction l with
  | nil => cases h
  | cons k tl ih =>
    by_cases hk : (k.name == n) = true
    · rw [find?_cons_pos _ k tl hk] at h
      injection h with h2
      subst h2
      simp only [List.map_cons, if_pos hk]
      exact find?_cons_pos _ _ _ hk
    · have hk2 : (k.name == n) = false := by simpa using hk
      rw [find?_cons_neg _ k tl hk2] at h
      simp only [List.map_cons, if_neg hk]
      rw [find?_cons_neg _ _ _ hk2]
      exact ih h

/-- C1: when a container with the deterministic name `{project}_{service}_1`
already exists, `_start_service` reuses it: the result is that container
(started when it was not running), the daemon's container names are
unchanged, no container-create call is performed, and the named container
is running in the resulting state. -/
theorem claim_C1_reuse_existing (proj : ComposeProject) (st : DockerState) (svcName : String)
    (procEnv : List (String × String)) (beh : RunBehavior) (c : Container)
    (h : containersGet st (containerName proj.name svcName) = some c) :
    (startServiceModel proj st svcName procEnv beh).1
        = .ok (proj, { c with status := STATUS_RUNNING })
  ∧ ((startServiceModel proj st svcName procEnv beh).2.1.containers.map
        (fun k => k.name)) = st.containers.map (fun k => k.name)
  ∧ (∀ call ∈ (startServiceModel proj st svcName procEnv beh).2.2, call.isCreate = false)
  ∧ containersGet (startServiceModel proj st svcName procEnv beh).2.1
        (containerName proj.name svcName) = some { c with status := STATUS_RUNNING } := by
  by_cases hst : (c.status == STATUS_RUNNING) = true
  · have hceq : { c with status := STATUS_RUNNING } = c := by
      have hs : c.status = STATUS_RUNNING := by simpa using hst
      cases c
      simp_all
    refine ⟨?_, ?_, ?_, ?_⟩
    · simp only [startServiceModel, h, hst, if_true]
      rw [hceq]
    · simp only [startServiceModel, h, hst, if_true]
    · intro call hcall
      simp only [startServiceModel, h, hst, if_true, List.mem_cons,
        List.not_mem_nil, or_false] at hcall
      subst hcall
      rfl
    · simp only [startServiceModel, h, hst, if_true]
      rw [hceq]
  · refine ⟨?_, ?_, ?_, ?_⟩
    · simp only [startServiceModel, h, hst, Bool.false_eq_true, if_false]
    · simp only [startServiceModel, h, hst, Bool.false_eq_true, if_false]
      exact map_name_setStatus st.containers (containerName proj.name svcName) STATUS_RUNNING
    · intro call hcall
      simp only [startServiceModel, h, hst, Bool.false_eq_true, if_false, List.mem_cons,
        List.not_mem_nil, or_false] at hcall
      rcases hcall with h1 | h1 <;> subst h1 <;> rfl
    · simp only [startServiceModel, h, hst, Bool.false_eq_true, if_false]
      exact find?_setStatus st.containers (containerName proj.name svcName) STATUS_RUNNING c h

/-- C1 witness: an exited `proj_web_1` is reused and started. -/
theorem claim_C1_witness :
    (startServiceModel projPlain stExited "web" [] {}).1
      = .ok (projPlain, { contExited with status := STATUS_RUNNING }) :=
  (claim_C1_reuse_existing projPlain stExited "web" [] {} contExited (by decide)).1

/-! ## C6: image validation precedes container creation -/

theorem parseServiceConfig_cases (wd : String) (procEnv : List (String × String))
    (sc : ServiceConfig) :
    (∃ m, parseServiceConfig wd procEnv sc = .error (.valueError m))
  ∨ (∃ cc, parseServiceConfig wd procEnv sc = .ok cc ∧ cc.image = sc.image) := by
  unfold parseServiceConfig
  rcases hps : sc.ports with _ | ps
  · right; exact ⟨_, rfl, rfl⟩
  · rcases hpp : parsePorts ps with m | pp
    · left; exact ⟨m, by dsimp only; rw [hpp]⟩
    · right; exact ⟨_, by dsimp only; rw [hpp], rfl⟩

/-- C6: for a declared service whose image is missing or empty, and with no
existing deterministic-named container, `_start_service` fails with a
`ValueError` raised while building the run parameters: the daemon state is
unchanged and no container-create call is ever performed. -/
theorem claim_C6_image_validation (proj : ComposeProject) (st : DockerState)
    (svcName : String) (procEnv : List (String × String)) (beh : RunBehavior)
    (cfg : ServiceConfig)
    (h1 : containersGet st (containerName proj.name svcName) = none)
    (h2 : lookupService proj svcName = some cfg)
    (h3 : cfg.image.getD "" = "") :
    (∃ m, (startServiceModel proj st svcName procEnv beh).1 = .error (.valueError m))
  ∧ (startServiceModel proj st svcName procEnv beh).2.1 = st
  ∧ (∀ call ∈ (startServiceModel proj st svcName procEnv beh).2.2, call.isCreate = false) := by
  rcases parseServiceConfig_cases proj.workingDir procEnv cfg with ⟨m, hm⟩ | ⟨cc, hcc, himg⟩
  · have hbk : buildRunKwargs proj st svcName cfg procEnv beh.netCreateErr
        = (.error (.valueError m), st, []) := by
      unfold buildRunKwargs
      rw [hm]
    refine ⟨⟨m, ?_⟩, ?_, ?_⟩
    · simp only [startServiceModel, h1, h2, hbk]
    · simp only [startServiceModel, h1, h2, hbk]
    · intro call hcall
      simp only [startServiceModel, h1, h2, hbk, List.mem_cons,
        List.not_mem_nil, or_false] at hcall
      subst hcall
      rfl
  · have himg2 : cc.image.getD "" = "" := by rw [himg]; exact h3
    have hbk : buildRunKwargs proj st svcName cfg procEnv beh.netCreateErr
        = (.error (.valueError ("Service " ++ svcName ++ " has no valid image")), st, []) := by
      unfold buildRunKwargs
      rw [hcc]
      dsimp only
      rw [if_pos himg2]
    refine ⟨⟨"Service " ++ svcName ++ " has no valid image", ?_⟩, ?_, ?_⟩
    · simp only [startServiceModel, h1, h2, hbk]
    · simp only [startServiceModel, h1, h2, hbk]
    · intro call hcall
      simp only [startServiceModel, h1, h2, hbk, List.mem_cons,
        List.not_mem_nil, or_false] at hcall
      subst hcall
      rfl

/-- C6 witness: service `bad` has no image; start fails with `ValueError`,
the state is untouched and no create call happens. -/
theorem claim_C6_witness :
    (∃ m, (startServiceModel projNoImage stEmpty "bad" [] {}).1 = .error (.valueError m))
  ∧ (startServiceModel projNoImage stEmpty "bad" [] {}).2.1 = stEmpty
  ∧ (∀ call ∈ (startServiceModel projNoImage stEmpty "bad" [] {}).2.2,
      call.isCreate = false) :=
  claim_C6_image_validation projNoImage stEmpty "bad" [] {} {} (by decide) (by decide)
    (by decide)

/-! ## C7: single point-in-time status check after create -/

theorem getOrCreateNetwork_calls (proj : ComposeProject) (st : DockerState)
    (createErr : Option String) :
    (getOrCreateNetwork proj st createErr).2.2 = []
  ∨ (getOrCreateNetwork proj st createErr).2.2 = [.networkGet (networkName proj.name)]
  ∨ (getOrCreateNetwork proj st createErr).2.2
      = [.networkGet (networkName proj.name), .networkCreate (networkName proj.name)] := by
  unfold getOrCreateNetwork
  rcases proj.network with _ | nw
  · rcases networksGet st (networkName proj.name) with _ | nw2
    · rcases createErr with _ | m
      · right; right; rfl
      · right; right; rfl
    · right; left; rfl
  · left; rfl

theorem getOrCreateNetwork_no_reload (proj : ComposeProject) (st : DockerState)
    (createErr : Option String) :
    ∀ call ∈ (getOrCreateNetwork proj st createErr).2.2, call.isStatusReload = false := by
  intro call hcall
  rcases getOrCreateNetwork_calls proj st createErr with h | h | h <;> rw [h] at hcall
  · simp at hcall
  · simp only [List.mem_cons, List.not_mem_nil, or_false] at hcall
    subst hcall
    rfl
  · simp only [List.mem_cons, List.not_mem_nil, or_false] at hcall
    rcases hcall with h1 | h1 <;> subst h1 <;> rfl

theorem buildRunKwargs_calls (proj : ComposeProject) (st : DockerState) (svcName : String)
    (cfg : ServiceConfig) (procEnv : List (String × String)) (netErr : Option String) :
    (buildRunKwargs proj st svcName cfg procEnv netErr).2.2 = []
  ∨ (buildRunKwargs proj st svcName cfg procEnv netErr).2.2
      = (getOrCreateNetwork proj st netErr).2.2 := by
  unfold buildRunKwargs
  rcases parseServiceConfig proj.workingDir procEnv cfg with e | cc
  · left; rfl
  · dsimp only
    by_cases himg : cc.image.getD "" = ""
    · rw [if_pos himg]
      left
      rfl
    · rw [if_neg himg]
      rcases cc.network_mode with _ | nm
      · rcases hg : getOrCreateNetwork proj st netErr with ⟨res, st3, calls3⟩
        rcases res with e2 | pr
        · right
          rfl
        · obtain ⟨p2, nw⟩ := pr
          right
          rfl
      · left
        rfl

theorem buildRunKwargs_no_reload (proj : ComposeProject) (st : DockerState)
    (svcName : String) (cfg : ServiceConfig) (procEnv : List (String × String))
    (netErr : Option String) :
    ∀ call ∈ (buildRunKwargs proj st svcName cfg procEnv netErr).2.2,
      call.isStatusReload = false := by
  intro call hcall
  rcases buildRunKwargs_calls proj st svcName cfg procEnv netErr with h | h <;> rw [h] at hcall
  · simp at hcall
  · exact getOrCreateNetwork_no_reload proj st netErr call hcall

theorem countP_eq_zero_of_all_false (l : List RuntimeCall)
    (h : ∀ x ∈ l, RuntimeCall.isStatusReload x = false) :
    l.countP (fun call => call.isStatusReload) = 0 := by
  rw [List.countP_eq_zero]
  intro a ha
  rw [h a ha]
  exact Bool.false_ne_true

/-- C7: after `containers.run` succeeds, `_start_service` performs exactly
one status re-query (there is no poll loop anywhere in the call); when the
observed status is `running` the container handle is returned, and
otherwise a `RuntimeError` is raised carrying the last 500 characters of
the container's logs. -/
theorem claim_C7_single_check (proj : ComposeProject) (st : DockerState) (svcName : String)
    (procEnv : List (String × String)) (beh : RunBehavior) (cfg : ServiceConfig)
    (proj2 : ComposeProject) (kw : RunKwargs) (st2 : DockerState) (calls : List RuntimeCall)
    (h1 : containersGet st (containerName proj.name svcName) = none)
    (h2 : lookupService proj svcName = some cfg)
    (h3 : buildRunKwargs proj st svcName cfg procEnv beh.netCreateErr
        = (.ok (proj2, kw), st2, calls))
    (h4 : beh.runErr = none) :
    ((startServiceModel proj st svcName procEnv beh).2.2.countP
        (fun call => call.isStatusReload) = 1)
  ∧ (beh.runStatus = STATUS_RUNNING →
      (startServiceModel proj st svcName procEnv beh).1
        = .ok (proj2, { name := containerName proj.name svcName,
                        projectLabel := some proj.name, serviceLabel := some svcName,
                        status := beh.runStatus, logs := beh.runLogs }))
  ∧ (beh.runStatus ≠ STATUS_RUNNING →
      (startServiceModel proj st svcName procEnv beh).1
        = .error (.runtimeError ("Service " ++ svcName ++ " exited immediately. Logs: "
            ++ pyTakeLast 500 beh.runLogs))) := by
  have hzero : calls.countP (fun call => call.isStatusReload) = 0 := by
    apply countP_eq_zero_of_all_false
    have hh := buildRunKwargs_no_reload proj st svcName cfg procEnv beh.netCreateErr
    rw [h3] at hh
    exact hh
  refine ⟨?_, fun hrun => ?_, fun hrun => ?_⟩
  · by_cases hrs : (beh.runStatus == STATUS_RUNNING) = true
    · simp only [startServiceModel, h1, h2, h3, h4, hrs, if_true]
      simp only [List.countP_cons, List.countP_append, hzero]
      rfl
    · simp only [startServiceModel, h1, h2, h3, h4, hrs, Bool.false_eq_true, if_false]
      simp only [List.countP_cons, List.countP_append, hzero]
      rfl
  · have hrs : (beh.runStatus == STATUS_RUNNING) = true := by simpa using hrun
    simp only [startServiceModel, h1, h2, h3, h4, hrs, if_true]
  · have hrs : (beh.runStatus == STATUS_RUNNING) = false := by simpa using hrun
    simp only [startServiceModel, h1, h2, h3, h4, hrs, Bool.false_eq_true, if_false]

/-- C7 witness: a fresh service start in an empty daemon returns the new
running container handle. -/
theorem claim_C7_witness :
    (startServiceModel projWeb stEmpty "web" [] {}).1
      = .ok ({ projWeb with network := some { name := "proj_default" } },
             { name := containerName "proj" "web", projectLabel := some "proj",
               serviceLabel := some "web", status := STATUS_RUNNING, logs := "" }) :=
  (claim_C7_single_check projWeb stEmpty "web" [] {} { image := some "busybox" }
    { projWeb with network := some { name := "proj_default" } }
    { name := "proj_web_1", detach := true,
      labels := [(LABEL_PROJECT, "proj"), (LABEL_SERVICE, "web")], image := "busybox",
      command := none, environment := none, ports := none, volumes := none,
      network_mode := none, working_dir := none, hostname := some "web",
      entrypoint := none, user := none, tty := none, stdin_open := none,
      network := some "proj_default" }
    { containers := [], networks := [{ name := "proj_default" }] }
    [.networkGet "proj_default", .networkCreate "proj_default"]
    (by decide) (by decide) (by decide) rfl).2.1 rfl

/-! ## C9: down() never raises -/

theorem composeContainerStop_ok (st : DockerState) (n : String)
    (err : Option DockerErrKind) :
    ∃ st2, composeContainerStop st n err = .ok st2 := by
  rcases err with _ | e
  · exact ⟨_, rfl⟩
  · refine ⟨st, ?_⟩
    unfold composeContainerStop dockerContainerStopRaw
    have h : isDockerErrPy e.toPyErr = true := by cases e <;> rfl
    simp [h]

theorem composeContainerRemove_ok (st : DockerState) (n : String)
    (err : Option DockerErrKind) :
    ∃ st2, composeContainerRemove st n err = .ok st2 := by
  rcases err with _ | e
  · exact ⟨_, rfl⟩
  · refine ⟨st, ?_⟩
    unfold composeContainerRemove dockerContainerRemoveRaw
    have h : isDockerErrPy e.toPyErr = true := by cases e <;> rfl
    simp [h]

theorem downStep_ok (beh : TeardownBehavior) (st0 : DockerState) (c : Container) :
    ∃ st1, downStep beh (.ok st0) c = .ok st1 := by
  obtain ⟨s1, h1⟩ := composeContainerStop_ok st0 c.name (beh.stopErr c.name)
  obtain ⟨s2, h2⟩ := composeContainerRemove_ok s1 c.name (beh.removeErr c.name)
  refine ⟨s2, ?_⟩
  unfold downStep
  dsimp only
  rw [h1]
  dsimp only
  rw [h2]

theorem foldl_downStep_ok (beh : TeardownBehavior) (cs : List Container) :
    ∀ st : DockerState, ∃ st2, cs.foldl (downStep beh) (.ok st) = .ok st2 := by
  induction cs with
  | nil => intro st; exact ⟨st, rfl⟩
  | cons c tl ih =>
    intro st
    obtain ⟨st1, h1⟩ := downStep_ok beh st c
    rw [List.foldl_cons, h1]
    exact ih st1

theorem removeNetworkModel_ok (proj : ComposeProject) (st : DockerState)
    (err : Option DockerErrKind) :
    ∃ st2, (removeNetworkModel proj st err).2 = .ok st2 := by
  unfold removeNetworkModel
  dsimp only
  rcases networksGet st (networkName proj.name) with _ | nw
  · exact ⟨st, rfl⟩
  · rcases err with _ | e
    · exact ⟨_, rfl⟩
    · refine ⟨st, ?_⟩
      have h : isDockerErrPy e.toPyErr = true := by cases e <;> rfl
      simp [h]

/-- C9: `down()` raises no error for every daemon state and every pattern
of docker errors (not-found or API errors) injected into the stop, remove
and network-remove calls — in particular on an already-torn-down project —
and it always clears the cached `_network` field. -/
theorem claim_C9_down_never_raises (proj : ComposeProject) (st : DockerState)
    (beh : TeardownBehavior) :
    (composeDown proj st beh).1 = .ok ()
  ∧ (composeDown proj st beh).2.1.network = none := by
  unfold composeDown
  obtain ⟨st1, h1⟩ := foldl_downStep_ok beh (proj.containers st none true) st
  rw [h1]
  dsimp only
  obtain ⟨st2, h2⟩ := removeNetworkModel_ok proj st1 beh.netRemoveErr
  rw [h2]
  exact ⟨rfl, rfl⟩
